import Mathlib

/-!
Verification of the nuclide debugger Bridge (src/pkg/nuclide-debugger/lib/Bridge.js)
and the GraphQL outline builder
(src/pkg/nuclide-graphql-language-service/lib/interfaces/getOutline.js),
as a shallow embedding in Lean 4.

The Bridge is a single-threaded message translator: inbound
`{channel, args}` messages from the debug engine become model-mutator
calls, and user intents become outbound dispatcher commands.  We embed
each Bridge method as a pure function from the relevant state (the
`_suppressBreakpointSync` flag) and an environment of external
collaborators (URI resolution, the store snapshot, throw oracles for the
model mutators) to a `StepResult` recording the final flag value, the
dispatcher commands sent, the model mutator calls made, and whether an
exception propagated out of the handler.
-/

namespace NuclideBridge

/-- Debugger mode enum.  Modelled from the spec: `DebuggerMode` is imported
from `./DebuggerStore`, which is not among the source files; spec section 3
gives the enum `{RUNNING, PAUSED, STOPPED, ...}`. -/
inductive DebuggerMode
  | RUNNING
  | PAUSED
  | STOPPED
  | STARTING
  | STOPPING
  deriving DecidableEq

/-- The `{sourceURL, lineNumber, condition, enabled}` breakpoint payload of an
inbound `BreakpointAdded` / `BreakpointRemoved` event (`IPCBreakpoint` in
types.js).  `resolved` models the JS field `payload.resolved`, which may be
absent (`none`) or a boolean (`some b`); Bridge.js only ever tests
`payload.resolved === true`. -/
structure IPCBreakpoint where
  sourceURL : String
  lineNumber : Int
  condition : String
  enabled : Bool
  resolved : Option Bool
  deriving DecidableEq

/-- A breakpoint held by the model's breakpoint store
(`getBreakpointStore().getAllBreakpoints()` elements). -/
structure StoreBreakpoint where
  path : String
  line : Int
  condition : String
  enabled : Bool
  deriving DecidableEq

/-- Argument of the breakpoint store's user-change callback
(`BreakpointUserChangeArgType`): the action name and the breakpoint. -/
structure BreakpointUserChangeArg where
  action : String
  breakpoint : StoreBreakpoint
  deriving DecidableEq

/-- A `{sourceURL, lineNumber}` source location payload. -/
structure SourceLocation where
  sourceURL : String
  lineNumber : Int
  deriving DecidableEq

/-- The `{sourceURL, lineNumber, message}` thread-switch notification carried
by a `NonLoaderDebuggerPaused` payload. -/
structure ThreadSwitchNotification where
  sourceURL : String
  lineNumber : Int
  message : String
  deriving DecidableEq

/-- The `NonLoaderDebuggerPaused` payload: both fields are nullable in JS. -/
structure PausedDetail where
  stopThreadId : Option Int
  threadSwitchNotification : Option ThreadSwitchNotification
  deriving DecidableEq

/-- The breakpoint shape `{sourceURL, lineNumber, condition, enabled}` sent in
outbound commands (single user changes and the bulk `SyncBreakpoints`). -/
structure BreakpointCmdPayload where
  sourceURL : String
  lineNumber : Int
  condition : String
  enabled : Bool
  deriving DecidableEq

/-- One positional argument of an outbound `send(channel, ...args)` call. -/
inductive CmdArg
  | str (s : String)
  | int (n : Int)
  | bool (b : Bool)
  | bp (p : BreakpointCmdPayload)
  | bpList (l : List BreakpointCmdPayload)
  | settings (serialized : String)
  deriving DecidableEq

/-- An outbound dispatcher command: the channel name and its arguments,
exactly as handed to `CommandDispatcher.send`. -/
structure Command where
  name : String
  args : List CmdArg
  deriving DecidableEq

/-- A call made by the Bridge into the model's action/query interface
(`DebuggerModel.getActions()` mutators, plus the store method
`loaderBreakpointResumed`).  Payloads the Bridge merely forwards without
inspecting are carried as opaque strings. -/
inductive ModelAction
  | setDebuggerMode (mode : DebuggerMode)
  | updateSelectedThread (threadNo : Int)
  | updateStopThread (id : Int)
  | notifyThreadSwitch (sourceURL : String) (lineNumber : Int) (message : String)
  | bindBreakpointIPC (path : String) (lineNumber : Int) (condition : String)
      (enabled : Bool) (resolved : Bool)
  | deleteBreakpointIPC (path : String) (lineNumber : Int)
  | setSelectedCallFrameLine (loc : Option SourceLocation)
  | openSourceLocation (sourceURL : String) (lineNumber : Int)
  | clearInterface
  | loaderBreakpointResumed
  | receiveExpressionEvaluationResponse (id : Int) (payload : String)
  | receiveGetPropertiesResponse (id : Int) (payload : String)
  | updateCallstack (payload : String)
  | updateScopes (payload : String)
  | updateThreads (payload : String)
  | updateThread (payload : String)
  deriving DecidableEq

/-- A dynamic JS value as it appears in an inbound message's `args` array.
Constructors cover the shapes Bridge.js actually reads; `blob` and
`response` carry payloads the Bridge forwards without inspection
(`response` keeps the numeric `id` field the Bridge does read). -/
inductive JsValue
  | undef
  | str (s : String)
  | breakpoint (bp : IPCBreakpoint)
  | paused (p : Option PausedDetail)
  | location (l : SourceLocation)
  | response (id : Int) (payload : String)
  | blob (payload : String)
  deriving DecidableEq

/-- An inbound transport message `{channel, args}`. -/
structure IpcMessage where
  channel : String
  args : List JsValue
  deriving DecidableEq

/-- JS array indexing: out-of-range access yields `undefined`. -/
def jsIndex (args : List JsValue) (i : Nat) : JsValue :=
  args.getD i JsValue.undef

/-- JS truthiness of the nullable string returned by
`nuclideUri.uriToNuclideUri` (`if (path)`): `null`/`undefined` and the empty
string are falsy. -/
def jsTruthy : Option String → Bool
  | none => false
  | some p => !p.isEmpty

/-- The strict comparison `payload.resolved === true`. -/
def strictTrue : Option Bool → Bool
  | some true => true
  | _ => false

/-- Extraction of a resolved path (meaningful only under `jsTruthy`). -/
def orEmpty : Option String → String
  | none => ""
  | some p => p

/-- External collaborators of the Bridge, snapshotted: URI translation
(`nuclide-commons/nuclideUri`), the store state read during the `ready`
handshake, and throw oracles saying whether the two breakpoint model
mutators raise when called. -/
structure BridgeEnv where
  resolve : String → Option String
  unresolve : String → String
  serializedSettings : String
  allBreakpoints : List StoreBreakpoint
  pauseOnException : Bool
  pauseOnCaughtException : Bool
  singleThreadStepping : Bool
  bindThrows : Bool
  deleteThrows : Bool

/-- Result of running one Bridge handler: the final value of
`_suppressBreakpointSync`, the dispatcher commands sent, the model calls
made, and whether an exception propagated out of the handler. -/
structure StepResult where
  suppressBreakpointSync : Bool
  commands : List Command
  actions : List ModelAction
  thrown : Bool
  deriving DecidableEq

/-- JS `try { body } finally { finalizer }` over our effect representation:
the finalizer's state update runs whether or not the body threw, and the
body's thrown status propagates.  The body triple is (flag after body,
model calls made by the body, whether the body threw). -/
def tryFinally (body : Bool × List ModelAction × Bool) (finalizer : Bool → Bool) :
    Bool × List ModelAction × Bool :=
  (finalizer body.1, body.2.1, body.2.2)

/-- Embedding of `_bindBreakpoint(breakpoint, resolved)`: resolve the source URL to a local
path; if truthy, set `_suppressBreakpointSync`, call `bindBreakpointIPC`
(which may throw, per the oracle `env.bindThrows`), and clear the flag in a
`finally`. -/
def bindBreakpoint (env : BridgeEnv) (s : Bool) (bp : IPCBreakpoint)
    (resolved : Bool) : StepResult :=
  match env.resolve bp.sourceURL with
  | some path =>
    if path.isEmpty then ⟨s, [], [], false⟩
    else
      let r := tryFinally
        (true,
         [ModelAction.bindBreakpointIPC path bp.lineNumber bp.condition
            bp.enabled resolved],
         env.bindThrows)
        (fun _ => false)
      ⟨r.1, [], r.2.1, r.2.2⟩
  | none => ⟨s, [], [], false⟩

/-- Embedding of `_removeBreakpoint(breakpoint)`: same locality filter and the same
`try`/`finally` flag discipline around `deleteBreakpointIPC`. -/
def removeBreakpoint (env : BridgeEnv) (s : Bool) (bp : IPCBreakpoint) :
    StepResult :=
  match env.resolve bp.sourceURL with
  | some path =>
    if path.isEmpty then ⟨s, [], [], false⟩
    else
      let r := tryFinally
        (true, [ModelAction.deleteBreakpointIPC path bp.lineNumber],
         env.deleteThrows)
        (fun _ => false)
      ⟨r.1, [], r.2.1, r.2.2⟩
  | none => ⟨s, [], [], false⟩

/-- Embedding of `_handleUserBreakpointChange(params)`: the breakpoint store's user-change
callback.  It sends one command named by `params.action` carrying the
translated `{sourceURL, lineNumber, condition, enabled}` payload.  The method
has access to `_suppressBreakpointSync` (passed here as `suppress`) but does
not read it: the send is unconditional. -/
def handleUserBreakpointChange (unresolve : String → String) (suppress : Bool)
    (params : BreakpointUserChangeArg) : List Command :=
  [⟨params.action,
    [CmdArg.bp ⟨unresolve params.breakpoint.path, params.breakpoint.line,
       params.breakpoint.condition, params.breakpoint.enabled⟩]⟩]

/-- The translated payload of one store breakpoint, as built inside
`_sendAllBreakpoints` and `_handleUserBreakpointChange`. -/
def breakpointPayload (env : BridgeEnv) (b : StoreBreakpoint) :
    BreakpointCmdPayload :=
  ⟨env.unresolve b.path, b.line, b.condition, b.enabled⟩

/-- Embedding of `_sendAllBreakpoints()`: gated on `!this._suppressBreakpointSync`; sends
one `SyncBreakpoints` command carrying the translated array of all store
breakpoints. -/
def sendAllBreakpoints (env : BridgeEnv) (suppress : Bool) : List Command :=
  if suppress then []
  else
    [⟨"SyncBreakpoints",
      [CmdArg.bpList (env.allBreakpoints.map (breakpointPayload env))]⟩]

/-- Embedding of `_updateDebuggerSettings()`: one `UpdateSettings` command with the store's
serialized settings. -/
def updateDebuggerSettings (env : BridgeEnv) : List Command :=
  [⟨"UpdateSettings", [CmdArg.settings env.serializedSettings]⟩]

/-- Embedding of `_syncDebuggerState()`: re-sends the three exception/stepping flags from
the current store snapshot, in source order. -/
def syncDebuggerState (env : BridgeEnv) : List Command :=
  [⟨"setPauseOnException", [CmdArg.bool env.pauseOnException]⟩,
   ⟨"setPauseOnCaughtException", [CmdArg.bool env.pauseOnCaughtException]⟩,
   ⟨"setSingleThreadStepping", [CmdArg.bool env.singleThreadStepping]⟩]

/-- Embedding of `_handleStopThreadSwitch(options)`: null payload is a no-op; otherwise one
`notifyThreadSwitch` model call. -/
def handleStopThreadSwitch : Option ThreadSwitchNotification → List ModelAction
  | none => []
  | some n => [ModelAction.notifyThreadSwitch n.sourceURL n.lineNumber n.message]

/-- Embedding of `_handleDebuggerPaused(options)`: mode goes to PAUSED; then, for a
non-null payload, the stop thread is updated when `stopThreadId` is non-null,
and the (nullable) thread-switch notification is forwarded. -/
def handleDebuggerPaused (options : Option PausedDetail) : List ModelAction :=
  ModelAction.setDebuggerMode DebuggerMode.PAUSED ::
    (match options with
     | none => []
     | some o =>
       (match o.stopThreadId with
        | some id => [ModelAction.updateStopThread id]
        | none => []) ++ handleStopThreadSwitch o.threadSwitchNotification)

/-- A character JS `parseInt` skips as leading whitespace (the common
StrWhiteSpace characters). -/
def isJsSpace (c : Char) : Bool :=
  c == ' ' || c == '\t' || c == '\n' || c == '\r'

/-- Numeric value of a decimal digit string. -/
def digitsToNat (ds : List Char) : Nat :=
  ds.foldl (fun a c => 10 * a + (c.toNat - '0'.toNat)) 0

/-- Sign-and-digit phase of JS `parseInt(s, 10)`, after leading whitespace was
skipped: consume an optional sign, then the longest decimal-digit run; `NaN`
(here `none`) when that run is empty, otherwise the signed value of the digit
run — trailing non-digit characters are ignored. -/
def parseAfterSpace : List Char → Option Int
  | [] => none
  | c :: t =>
    let neg : Bool := c == '-'
    let rest := if c == '-' || c == '+' then t else c :: t
    let ds := rest.takeWhile Char.isDigit
    if ds.isEmpty then none
    else some ((if neg then (-1 : Int) else 1) * (digitsToNat ds : Int))

/-- JS `parseInt(s, 10)`. -/
def jsParseInt10 (s : String) : Option Int :=
  parseAfterSpace (s.data.dropWhile isJsSpace)

/-- Whether a character list does not start with a decimal digit (so a JS
`parseInt` digit run ends right before it). -/
def noLeadingDigit : List Char → Bool
  | [] => true
  | c :: _ => !c.isDigit

/-- Embedding of `selectThread(threadId)`: always send the `selectThread` command with the
original string; then, when `parseInt(threadId, 10)` is not NaN, call the
model mutator `updateSelectedThread` with the parsed integer. -/
def selectThread (threadId : String) : List Command × List ModelAction :=
  ([⟨"selectThread", [CmdArg.str threadId]⟩],
   match jsParseInt10 threadId with
   | some n => [ModelAction.updateSelectedThread n]
   | none => [])

/-- Payload coercion for events whose payload Bridge.js treats as a nullable
object destructured as an `IPCBreakpoint`; other shapes are outside the
embedding's domain (`none`). -/
def asBreakpoint : JsValue → Option IPCBreakpoint
  | JsValue.breakpoint bp => some bp
  | _ => none

/-- Payload coercion for `NonLoaderDebuggerPaused`: a missing (`undefined`)
argument behaves as a null payload. -/
def asPaused : JsValue → Option (Option PausedDetail)
  | JsValue.paused p => some p
  | JsValue.undef => some none
  | _ => none

/-- Payload coercion for `CallFrameSelected` / `OpenSourceLocation`: a missing
(`undefined`) argument behaves as a null location. -/
def asLocation : JsValue → Option (Option SourceLocation)
  | JsValue.location l => some (some l)
  | JsValue.undef => some none
  | _ => none

/-- The fifteen event names the `notification` switch in `_handleIpcMessage`
handles, in source order. -/
def handledEvents : List String :=
  ["ready", "CallFrameSelected", "OpenSourceLocation", "ClearInterface",
   "DebuggerResumed", "LoaderBreakpointResumed", "BreakpointAdded",
   "BreakpointRemoved", "NonLoaderDebuggerPaused",
   "ExpressionEvaluationResponse", "GetPropertiesResponse",
   "CallstackUpdate", "ScopesUpdate", "ThreadsUpdate", "ThreadUpdate"]

/-- The inner `switch (event.args[0])` of `_handleIpcMessage`, given a string
event name.  Unmatched names fall through: no state change, no commands, no
model calls.  (The `ready` branch may also call `openDevTools()`, which
touches only the embedded webview — neither a dispatcher command nor a model
call — so it leaves no trace here.)  Handled events whose payload does not
have the shape the handler destructures are outside the embedding's domain
(`none`). -/
def handleNamedEvent (env : BridgeEnv) (s : Bool) (name : String)
    (a1 : JsValue) : Option StepResult :=
  if name = "ready" then
    some ⟨s,
      updateDebuggerSettings env ++ sendAllBreakpoints env s ++
        syncDebuggerState env,
      [], false⟩
  else if name = "CallFrameSelected" then
    match asLocation a1 with
    | some l => some ⟨s, [], [ModelAction.setSelectedCallFrameLine l], false⟩
    | none => none
  else if name = "OpenSourceLocation" then
    match asLocation a1 with
    | some none => some ⟨s, [], [], false⟩
    | some (some l) =>
      some ⟨s, [], [ModelAction.openSourceLocation l.sourceURL l.lineNumber],
        false⟩
    | none => none
  else if name = "ClearInterface" then
    some ⟨s, [], [ModelAction.clearInterface], false⟩
  else if name = "DebuggerResumed" then
    some ⟨s, [], [ModelAction.setDebuggerMode DebuggerMode.RUNNING], false⟩
  else if name = "LoaderBreakpointResumed" then
    some ⟨s, [], [ModelAction.loaderBreakpointResumed], false⟩
  else if name = "BreakpointAdded" then
    match asBreakpoint a1 with
    | some bp => some (bindBreakpoint env s bp (strictTrue bp.resolved))
    | none => none
  else if name = "BreakpointRemoved" then
    match asBreakpoint a1 with
    | some bp => some (removeBreakpoint env s bp)
    | none => none
  else if name = "NonLoaderDebuggerPaused" then
    match asPaused a1 with
    | some o => some ⟨s, [], handleDebuggerPaused o, false⟩
    | none => none
  else if name = "ExpressionEvaluationResponse" then
    match a1 with
    | JsValue.response id payload =>
      some ⟨s, [], [ModelAction.receiveExpressionEvaluationResponse id payload],
        false⟩
    | _ => none
  else if name = "GetPropertiesResponse" then
    match a1 with
    | JsValue.response id payload =>
      some ⟨s, [], [ModelAction.receiveGetPropertiesResponse id payload], false⟩
    | _ => none
  else if name = "CallstackUpdate" then
    match a1 with
    | JsValue.blob payload =>
      some ⟨s, [], [ModelAction.updateCallstack payload], false⟩
    | _ => none
  else if name = "ScopesUpdate" then
    match a1 with
    | JsValue.blob payload =>
      some ⟨s, [], [ModelAction.updateScopes payload], false⟩
    | _ => none
  else if name = "ThreadsUpdate" then
    match a1 with
    | JsValue.blob payload =>
      some ⟨s, [], [ModelAction.updateThreads payload], false⟩
    | _ => none
  else if name = "ThreadUpdate" then
    match a1 with
    | JsValue.blob payload =>
      some ⟨s, [], [ModelAction.updateThread payload], false⟩
    | _ => none
  else some ⟨s, [], [], false⟩

/-- Dispatch on `event.args[0]`: a non-string discriminant matches none of the
string cases and falls through silently. -/
def handleNotificationEvent (env : BridgeEnv) (s : Bool) (a0 a1 : JsValue) :
    Option StepResult :=
  match a0 with
  | JsValue.str name => handleNamedEvent env s name a1
  | _ => some ⟨s, [], [], false⟩

/-- Embedding of `_handleIpcMessage(event)`: the outer `switch (event.channel)` has a
single `notification` case; every other channel falls through silently. -/
def handleIpcMessage (env : BridgeEnv) (s : Bool) (msg : IpcMessage) :
    Option StepResult :=
  if msg.channel = "notification" then
    handleNotificationEvent env s (jsIndex msg.args 0) (jsIndex msg.args 1)
  else some ⟨s, [], [], false⟩

/-- Modelled from the spec: the slice of the debugger model's state touched by
the mutators the claims name.  `DebuggerModel`/`DebuggerStore` are not among
the source files; spec sections 3 and 6 describe the mutator interface
(`setDebuggerMode` sets the mode, `updateSelectedThread` the selected-thread
field, `updateStopThread` the stop-thread field, `notifyThreadSwitch`
surfaces an informational notice). -/
structure DebuggerModelState where
  mode : DebuggerMode
  selectedThread : Option Int
  stopThread : Option Int
  notices : List ThreadSwitchNotification
  deriving DecidableEq

/-- Modelled from the spec: effect of one model mutator call on the state
slice above; mutators not touching this slice leave it unchanged. -/
def applyAction (m : DebuggerModelState) : ModelAction → DebuggerModelState
  | ModelAction.setDebuggerMode md => { m with mode := md }
  | ModelAction.updateSelectedThread n => { m with selectedThread := some n }
  | ModelAction.updateStopThread n => { m with stopThread := some n }
  | ModelAction.notifyThreadSwitch u l msg =>
    { m with notices := m.notices ++ [⟨u, l, msg⟩] }
  | _ => m

/-- Fold a trace of model calls over the model state. -/
def applyActions (m : DebuggerModelState) (as : List ModelAction) :
    DebuggerModelState :=
  as.foldl applyAction m

/-- A concrete environment used to instantiate hypothesis-bearing theorems at
concrete inputs. -/
def sampleEnv : BridgeEnv where
  resolve := fun u => some u
  unresolve := fun p => p
  serializedSettings := "settings"
  allBreakpoints := []
  pauseOnException := false
  pauseOnCaughtException := false
  singleThreadStepping := false
  bindThrows := false
  deleteThrows := false

end NuclideBridge

namespace GraphQLOutline

/-- The `{outlineTrees}` object `getOutline` returns on a successful parse. -/
structure OutlineResult (R : Type) where
  outlineTrees : R

/-- Embedding of `getOutline(queryText)` from getOutline.js, over an abstract GraphQL
front end.  The graphql library is external to this repository, so its two
entry points are parameters: `parse` (which may throw — `Except.error`) and
`visitOutline` (the `visit(ast, {leave ...})` call whose leave-visitor is
built by `outlineTreeConverter queryText`, hence the extra string argument).
The `try`/`catch` around `parse` maps a parse exception to `null`. -/
def getOutline {AST R : Type} (parse : String → Except String AST)
    (visitOutline : String → AST → R) (queryText : String) :
    Option (OutlineResult R) :=
  match parse queryText with
  | Except.error _ => none
  | Except.ok ast => some ⟨visitOutline queryText ast⟩

/-- A trivial parser that always succeeds, used to instantiate `getOutline`
at a concrete input. -/
def parseAlwaysOk : String → Except String Unit :=
  fun _ => Except.ok ()

/-- A trivial parser that always throws, used to instantiate `getOutline`
at a concrete input. -/
def parseAlwaysFails : String → Except String Unit :=
  fun q => Except.error q

/-- A trivial visitor instantiation. -/
def visitConst : String → Unit → Nat :=
  fun _ _ => 7

end GraphQLOutline

namespace NuclideBridge

/-- A digit character is not parseInt leading whitespace. -/
theorem not_space_of_digit (c : Char) (h : c.isDigit = true) :
    isJsSpace c = false := by
  rcases eq_or_ne c ' ' with rfl | h1
  · exact absurd h (by decide)
  rcases eq_or_ne c '\t' with rfl | h2
  · exact absurd h (by decide)
  rcases eq_or_ne c '\n' with rfl | h3
  · exact absurd h (by decide)
  rcases eq_or_ne c '\r' with rfl | h4
  · exact absurd h (by decide)
  simp [isJsSpace, h1, h2, h3, h4]

/-- A digit character is not a sign character. -/
theorem not_sign_of_digit (c : Char) (h : c.isDigit = true) :
    (c == '-' || c == '+') = false := by
  rcases eq_or_ne c '-' with rfl | h1
  · exact absurd h (by decide)
  rcases eq_or_ne c '+' with rfl | h2
  · exact absurd h (by decide)
  simp [h1, h2]

/-- Lemma: `takeWhile isDigit` over a digit run followed by a non-digit boundary
returns exactly the digit run. -/
theorem takeWhile_digits_append (ds r : List Char)
    (h1 : ds.all Char.isDigit = true) (h2 : noLeadingDigit r = true) :
    (ds ++ r).takeWhile Char.isDigit = ds := by
  induction ds with
  | nil =>
    cases r with
    | nil => rfl
    | cons a t =>
      have ha : a.isDigit = false := by
        simpa [noLeadingDigit] using h2
      simp [List.takeWhile_cons, ha]
  | cons d ds' ih =>
    have h1' := h1
    rw [List.all_cons, Bool.and_eq_true] at h1'
    simp [List.takeWhile_cons, h1'.1, ih h1'.2]

/-- JS `parseInt(_, 10)` of a nonempty digit run followed by a non-digit
remainder yields the value of the digit run. -/
theorem jsParseInt10_digit_run (ds r : List Char) (hne : ds ≠ [])
    (h1 : ds.all Char.isDigit = true) (h2 : noLeadingDigit r = true) :
    jsParseInt10 (String.mk (ds ++ r)) = some (digitsToNat ds : Int) := by
  cases ds with
  | nil => exact absurd rfl hne
  | cons d ds' =>
    have hd : d.isDigit = true := by
      have h1' := h1
      rw [List.all_cons, Bool.and_eq_true] at h1'
      exact h1'.1
    have hsp : isJsSpace d = false := not_space_of_digit d hd
    have hneg : (d == '-') = false := by
      rcases eq_or_ne d '-' with rfl | h
      · exact absurd hd (by decide)
      · simpa using h
    have hplus : (d == '+') = false := by
      rcases eq_or_ne d '+' with rfl | h
      · exact absurd hd (by decide)
      · simpa using h
    have htake : (d :: (ds' ++ r)).takeWhile Char.isDigit = d :: ds' := by
      have ht := takeWhile_digits_append (d :: ds') r h1 h2
      simpa using ht
    have hdrop : (d :: (ds' ++ r)).dropWhile isJsSpace = d :: (ds' ++ r) := by
      simp [List.dropWhile_cons, hsp]
    show parseAfterSpace ((d :: (ds' ++ r)).dropWhile isJsSpace) =
      some (digitsToNat (d :: ds') : Int)
    rw [hdrop]
    simp only [parseAfterSpace, hneg, hplus, Bool.or_self, Bool.false_eq_true,
      if_false, ite_false]
    rw [htake]
    simp

/-- C1 counterexample: the claim says a user-change event delivered while
`_suppressBreakpointSync` is set sends no outbound command; but
`_handleUserBreakpointChange` never reads the flag, so with the flag set it
still sends a command for a concrete change event. -/
theorem userBreakpointChange_sent_despite_suppression :
    handleUserBreakpointChange (fun p => p) true
      ⟨"AddBreakpoint", ⟨"/tmp/a.js", 10, "x > 1", true⟩⟩ ≠ [] := by
  decide

/-- C1 (amended): every breakpoint user-change event delivered to the
Bridge's listener sends exactly one outbound command, named by the change's
action and carrying the translated `{sourceURL, lineNumber, condition,
enabled}` payload, irrespective of the echo-suppression flag — the flag
gates only the bulk `_sendAllBreakpoints` push. -/
theorem userBreakpointChange_always_sends_one_command
    (unresolve : String → String) (suppress : Bool)
    (params : BreakpointUserChangeArg) :
    handleUserBreakpointChange unresolve suppress params =
      [⟨params.action,
        [CmdArg.bp ⟨unresolve params.breakpoint.path, params.breakpoint.line,
           params.breakpoint.condition, params.breakpoint.enabled⟩]⟩] ∧
    handleUserBreakpointChange unresolve true params =
      handleUserBreakpointChange unresolve false params :=
  ⟨rfl, rfl⟩

/-- C2: after `_bindBreakpoint` / `_removeBreakpoint` return or propagate an
exception, `_suppressBreakpointSync` is false again — even when the model
mutation throws (the throw oracles `env.bindThrows` / `env.deleteThrows` are
arbitrary here, and the `thrown` equations show the exception really
propagates in the throwing runs). -/
theorem suppression_flag_reset_after_breakpoint_handlers
    (env : BridgeEnv) (bp : IPCBreakpoint) (resolved : Bool) :
    (bindBreakpoint env false bp resolved).suppressBreakpointSync = false ∧
    (bindBreakpoint env false bp resolved).thrown =
      (jsTruthy (env.resolve bp.sourceURL) && env.bindThrows) ∧
    (removeBreakpoint env false bp).suppressBreakpointSync = false ∧
    (removeBreakpoint env false bp).thrown =
      (jsTruthy (env.resolve bp.sourceURL) && env.deleteThrows) := by
  cases h : env.resolve bp.sourceURL with
  | none => simp [bindBreakpoint, removeBreakpoint, tryFinally, jsTruthy, h]
  | some path =>
    cases hp : path.isEmpty <;>
      simp [bindBreakpoint, removeBreakpoint, tryFinally, jsTruthy, h, hp]

/-- C4: `selectThread("42")` dispatches the `selectThread` command with the
original string and updates the model's selected-thread field to 42;
`selectThread("abc")` dispatches the command but makes no model call, so the
selected-thread field is unchanged. -/
theorem selectThread_dual_write (m : DebuggerModelState) :
    selectThread ("42") =
      ([⟨"selectThread", [CmdArg.str ("42")]⟩],
       [ModelAction.updateSelectedThread 42]) ∧
    selectThread ("abc") = ([⟨"selectThread", [CmdArg.str ("abc")]⟩], []) ∧
    (applyActions m (selectThread ("42")).2).selectedThread = some 42 ∧
    applyActions m (selectThread ("abc")).2 = m := by
  refine ⟨by decide, by decide, ?_, ?_⟩
  · show (applyActions m [ModelAction.updateSelectedThread 42]).selectedThread
      = some 42
    rfl
  · show applyActions m [] = m
    rfl

/-- C5: the bulk push `_sendAllBreakpoints` is gated by the suppression flag:
with the flag set it sends nothing; with it clear it sends exactly one
`SyncBreakpoints` command carrying one translated payload per store
breakpoint. -/
theorem sendAllBreakpoints_gated_by_suppression (env : BridgeEnv) :
    sendAllBreakpoints env true = [] ∧
    sendAllBreakpoints env false =
      [⟨"SyncBreakpoints",
        [CmdArg.bpList (env.allBreakpoints.map (breakpointPayload env))]⟩] ∧
    (env.allBreakpoints.map (breakpointPayload env)).length =
      env.allBreakpoints.length := by
  refine ⟨rfl, rfl, ?_⟩
  simp

/-- C3: on the `ready` handshake message (with the suppression flag at its
rest value, false — every handler restores it before returning), the Bridge
emits exactly, in order: one `UpdateSettings` command with the serialized
settings, one `SyncBreakpoints` command with the full current breakpoint
array, then the three pause-on-exception-family commands reflecting the
store flags. -/
theorem ready_command_sequence (env : BridgeEnv) :
    handleIpcMessage env false
        ⟨"notification", [JsValue.str ("ready"), JsValue.undef]⟩ =
      some ⟨false,
        [⟨"UpdateSettings", [CmdArg.settings env.serializedSettings]⟩,
         ⟨"SyncBreakpoints",
           [CmdArg.bpList (env.allBreakpoints.map (breakpointPayload env))]⟩,
         ⟨"setPauseOnException", [CmdArg.bool env.pauseOnException]⟩,
         ⟨"setPauseOnCaughtException",
           [CmdArg.bool env.pauseOnCaughtException]⟩,
         ⟨"setSingleThreadStepping", [CmdArg.bool env.singleThreadStepping]⟩],
        [], false⟩ :=
  rfl

/-- C6: `BreakpointAdded` and `BreakpointRemoved` dispatch to
`_bindBreakpoint` / `_removeBreakpoint`; the model mutator is called if and
only if the sourceURL resolves to a (truthy) local filesystem path, the
`resolved` argument is exactly `payload.resolved === true`, removal is by
(path, lineNumber), and a non-local sourceURL causes no model call. -/
theorem breakpoint_events_locality_filter (env : BridgeEnv) (s : Bool)
    (bp : IPCBreakpoint) :
    handleIpcMessage env s
        ⟨"notification", [JsValue.str ("BreakpointAdded"),
          JsValue.breakpoint bp]⟩ =
      some (bindBreakpoint env s bp (strictTrue bp.resolved)) ∧
    handleIpcMessage env s
        ⟨"notification", [JsValue.str ("BreakpointRemoved"),
          JsValue.breakpoint bp]⟩ =
      some (removeBreakpoint env s bp) ∧
    (bindBreakpoint env s bp (strictTrue bp.resolved)).actions =
      (if jsTruthy (env.resolve bp.sourceURL) then
        [ModelAction.bindBreakpointIPC (orEmpty (env.resolve bp.sourceURL))
           bp.lineNumber bp.condition bp.enabled (strictTrue bp.resolved)]
       else []) ∧
    (removeBreakpoint env s bp).actions =
      (if jsTruthy (env.resolve bp.sourceURL) then
        [ModelAction.deleteBreakpointIPC (orEmpty (env.resolve bp.sourceURL))
           bp.lineNumber]
       else []) ∧
    ((bindBreakpoint env s bp (strictTrue bp.resolved)).actions ≠ [] ↔
      jsTruthy (env.resolve bp.sourceURL) = true) := by
  refine ⟨rfl, rfl, ?_, ?_, ?_⟩ <;>
    cases h : env.resolve bp.sourceURL with
  | none =>
    simp [bindBreakpoint, removeBreakpoint, tryFinally, jsTruthy, orEmpty, h]
  | some path =>
    cases hp : path.isEmpty <;>
      simp [bindBreakpoint, removeBreakpoint, tryFinally, jsTruthy, orEmpty,
        h, hp]

/-- C7: `NonLoaderDebuggerPaused` with payload `{stopThreadId: 7,
threadSwitchNotification: null}` sets the model mode to PAUSED and the stop
thread to 7 and surfaces no thread-switch notice; in general the stop-thread
update happens exactly when the payload carries a non-null `stopThreadId`
and the notice exactly when it carries a non-null
`threadSwitchNotification`. -/
theorem debuggerPaused_updates (env : BridgeEnv) (s : Bool)
    (m : DebuggerModelState) :
    handleIpcMessage env s
        ⟨"notification", [JsValue.str ("NonLoaderDebuggerPaused"),
          JsValue.paused (some ⟨some 7, none⟩)]⟩ =
      some ⟨s, [],
        [ModelAction.setDebuggerMode DebuggerMode.PAUSED,
         ModelAction.updateStopThread 7], false⟩ ∧
    (applyActions m
        [ModelAction.setDebuggerMode DebuggerMode.PAUSED,
         ModelAction.updateStopThread 7]).mode = DebuggerMode.PAUSED ∧
    (applyActions m
        [ModelAction.setDebuggerMode DebuggerMode.PAUSED,
         ModelAction.updateStopThread 7]).stopThread = some 7 ∧
    (applyActions m
        [ModelAction.setDebuggerMode DebuggerMode.PAUSED,
         ModelAction.updateStopThread 7]).notices = m.notices ∧
    (∀ o : PausedDetail,
      ((∃ id, ModelAction.updateStopThread id ∈
          handleDebuggerPaused (some o)) ↔ o.stopThreadId ≠ none) ∧
      ((∃ u l msg, ModelAction.notifyThreadSwitch u l msg ∈
          handleDebuggerPaused (some o)) ↔
        o.threadSwitchNotification ≠ none)) := by
  refine ⟨rfl, rfl, rfl, rfl, ?_⟩
  intro o
  obtain ⟨st, tsn⟩ := o
  cases st <;> cases tsn <;>
    simp [handleDebuggerPaused, handleStopThreadSwitch]

/-- C8: a message on any channel other than `notification`, or a
`notification` whose `args[0]` is not one of the fifteen handled event
names, is silently ignored: no state change, no command, no model call. -/
theorem unrecognized_messages_ignored (env : BridgeEnv) (s : Bool)
    (msg : IpcMessage)
    (h : msg.channel ≠ "notification" ∨
      ∀ name, jsIndex msg.args 0 = JsValue.str name → name ∉ handledEvents) :
    handleIpcMessage env s msg = some ⟨s, [], [], false⟩ := by
  unfold handleIpcMessage
  by_cases hc : msg.channel = "notification"
  · rw [if_pos hc]
    have hnames : ∀ name, jsIndex msg.args 0 = JsValue.str name →
        name ∉ handledEvents := by
      rcases h with h | h
      · exact absurd hc h
      · exact h
    cases ha : jsIndex msg.args 0 with
    | str name =>
      have hn := hnames name ha
      simp only [handledEvents, List.mem_cons, List.not_mem_nil, or_false,
        not_or] at hn
      obtain ⟨h1, h2, h3, h4, h5, h6, h7, h8, h9, h10, h11, h12, h13, h14,
        h15⟩ := hn
      show handleNamedEvent env s name (jsIndex msg.args 1) =
        some ⟨s, [], [], false⟩
      unfold handleNamedEvent
      rw [if_neg h1, if_neg h2, if_neg h3, if_neg h4, if_neg h5, if_neg h6,
        if_neg h7, if_neg h8, if_neg h9, if_neg h10, if_neg h11, if_neg h12,
        if_neg h13, if_neg h14, if_neg h15]
    | undef => rfl
    | breakpoint bp => rfl
    | paused p => rfl
    | location l => rfl
    | response id payload => rfl
    | blob payload => rfl
  · rw [if_neg hc]

/-- Witness for C8 at concrete inputs: an unknown channel and an unknown
event name under `notification` are both ignored. -/
theorem unrecognized_messages_ignored_witness :
    handleIpcMessage sampleEnv false ⟨"other-channel", []⟩ =
      some ⟨false, [], [], false⟩ ∧
    handleIpcMessage sampleEnv false
        ⟨"notification", [JsValue.str ("SomethingNew")]⟩ =
      some ⟨false, [], [], false⟩ := by
  constructor
  · exact unrecognized_messages_ignored sampleEnv false _
      (Or.inl (by decide))
  · refine unrecognized_messages_ignored sampleEnv false _ (Or.inr ?_)
    intro name hname
    have : JsValue.str ("SomethingNew") = JsValue.str name := hname
    injection this with hn
    subst hn
    decide

/-- C9: `selectThread` parses its argument with `parseInt(_, 10)`, so any
string made of a nonempty decimal-digit run followed by a non-digit
remainder dispatches the `selectThread` command with the original string
while updating the model's selected thread to the value of the leading digit
run. -/
theorem selectThread_parses_leading_digits (ds r : List Char)
    (hne : ds ≠ []) (h1 : ds.all Char.isDigit = true)
    (h2 : noLeadingDigit r = true) :
    selectThread (String.mk (ds ++ r)) =
      ([⟨"selectThread", [CmdArg.str (String.mk (ds ++ r))]⟩],
       [ModelAction.updateSelectedThread (digitsToNat ds : Int)]) := by
  unfold selectThread
  rw [jsParseInt10_digit_run ds r hne h1 h2]

/-- Witness for C9 at `"42abc"`: the command carries the original string and
the model update carries 42. -/
theorem selectThread_parses_leading_digits_witness :
    selectThread (String.mk (['4', '2'] ++ ['a', 'b', 'c'])) =
      ([⟨"selectThread",
         [CmdArg.str (String.mk (['4', '2'] ++ ['a', 'b', 'c']))]⟩],
       [ModelAction.updateSelectedThread 42]) :=
  (selectThread_parses_leading_digits ['4', '2'] ['a', 'b', 'c']
    (by decide) (by decide) (by decide)).trans (by decide)

end NuclideBridge

namespace GraphQLOutline

/-- C10: `getOutline` is total: it returns `null` exactly when the GraphQL
parse throws, and on every successful parse it returns the `{outlineTrees}`
object built from the visited AST. -/
theorem getOutline_total_error_handling {AST R : Type}
    (parse : String → Except String AST) (visitOutline : String → AST → R)
    (q : String) :
    (getOutline parse visitOutline q = none ↔
      ∃ e, parse q = Except.error e) ∧
    (∀ ast, parse q = Except.ok ast →
      getOutline parse visitOutline q = some ⟨visitOutline q ast⟩) := by
  unfold getOutline
  cases h : parse q with
  | error e => simp
  | ok a =>
    constructor
    · simp
    · intro ast hast
      injection hast with ha
      subst ha
      rfl

/-- Witness for C10 at concrete inputs: a throwing parse yields `null`, a
successful parse yields the visited result. -/
theorem getOutline_total_error_handling_witness :
    getOutline parseAlwaysFails visitConst ("query Q") = none ∧
    getOutline parseAlwaysOk visitConst ("query Q") = some ⟨7⟩ :=
  ⟨(getOutline_total_error_handling parseAlwaysFails visitConst
      "query Q").1.mpr ⟨"query Q", rfl⟩,
   (getOutline_total_error_handling parseAlwaysOk visitConst
      "query Q").2 () rfl⟩

end GraphQLOutline
